import Mathlib

/-!
Shallow embedding of the booking scheduling core of a multi-tenant
service-booking platform: conflict detection for proposed booking windows,
dynamic price computation, and workload-aware auto-assignment of staff.

Conventions of the embedding:
* JavaScript Date values are modelled as integer milliseconds since the epoch;
  the local timezone is modelled as UTC, so day boundaries fall on multiples
  of 86400000 ms (Jan 1 1970 was a Thursday, weekday index 4).
* JavaScript numbers that carry fractional values (surcharge percentages,
  exchange rates, base prices) are modelled as exact fractions of integers.
* Database reads are modelled by explicit record stores passed as arguments;
  each Prisma query is translated to a filter or lookup over those lists.
* Nullable JavaScript values become Option; JavaScript truthiness on strings
  (the empty string is falsy) is modelled explicitly.
-/

/-- An exact fraction of integers, modelling a JavaScript number that may be
fractional (percentages, exchange rates, decimal prices).  All values built
by the code have a positive denominator. -/
structure Frac where
  num : Int
  den : Int
deriving DecidableEq, Repr

/-- The sign test `f > 0` on a JavaScript number, as a test on the fraction. -/
def fracPos (f : Frac) : Bool := 0 < f.num * f.den

/-- `Math.round (a * f)` for an integer cent amount `a` and fraction `f` with
positive denominator: `floor (a * num / den + 1 / 2)` computed in integers.
JavaScript `Math.round` rounds half toward positive infinity, which is
`floor (x + 1 / 2)`. -/
def mulRound (a : Int) (f : Frac) : Int :=
  (2 * a * f.num + f.den).fdiv (2 * f.den)

/-- `String.prototype.toUpperCase`, modelled character by character. -/
def upperStr (s : String) : String := ⟨s.data.map Char.toUpper⟩

/-- JavaScript truthiness of a nullable string: null, undefined and the empty
string are falsy. -/
def truthyStr : Option String → Bool
  | none => false
  | some s => !(s == "")

/-! ## Time arithmetic (milliseconds since epoch, local timezone = UTC) -/

/-- Modelled from the spec: the helper `addMinutes` lives in the availability
module, which is not part of the extracted sources; it shifts an instant by a
number of minutes. -/
def addMinutes (t : Int) (m : Int) : Int := t + m * 60000

/-- `setHours(0,0,0,0)`: the midnight starting the local day of `t`. -/
def startOfDay (t : Int) : Int := (t.fdiv 86400000) * 86400000

/-- `setHours(23,59,59,999)`: the last millisecond of the local day of `t`. -/
def endOfDay (t : Int) : Int := startOfDay t + 86399999

/-- `Date.prototype.getDay`: weekday index, 0 = Sunday .. 6 = Saturday. -/
def jsGetDay (t : Int) : Int := (t.fdiv 86400000 + 4) % 7

/-- `Date.prototype.getHours`: local hour of day, 0..23. -/
def jsGetHours (t : Int) : Int := (t.fdiv 3600000) % 24

/-! ## Conflict detector (checkBookingConflict) -/

/-- The half-open interval intersection test used by the conflict detector:
`aStart < bEnd && bStart < aEnd`. -/
def overlaps (aStart aEnd bStart bEnd : Int) : Bool :=
  decide (aStart < bEnd) && decide (bStart < aEnd)

/-- A row of the services table, with the nullable columns the code reads. -/
structure ServiceRow where
  id : String
  tenantId : Option String
  category : Option String
  status : Option String
  active : Option Bool
  bookingEnabled : Option Bool
  bufferTime : Option Int
  maxDailyBookings : Option Int
  basePrice : Option Frac
  price : Option Frac
  duration : Option Int
deriving DecidableEq, Repr

/-- A row of the bookings table (the columns the conflict detector reads). -/
structure BookingRow where
  id : String
  serviceId : String
  status : String
  scheduledAt : Int
  duration : Int
  assignedTeamMemberId : Option String
deriving DecidableEq, Repr

/-- Result of `checkBookingConflict`: flag, optional reason code, optional
conflicting booking id. -/
structure ConflictResult where
  conflict : Bool
  reason : Option String
  conflictingBookingId : Option String
deriving DecidableEq, Repr

/-- Parameters of `checkBookingConflict`. -/
structure CheckConflictParams where
  serviceId : String
  start : Int
  durationMinutes : Int
  excludeBookingId : Option String
  teamMemberId : Option String
deriving DecidableEq, Repr

/-- The record store visible to the conflict detector. -/
structure ConflictDb where
  services : List ServiceRow
  bookings : List BookingRow
deriving DecidableEq, Repr

/-- The service gate of the conflict detector: the service is rejected when
`String(svc.status).toUpperCase() !== "ACTIVE"` (a missing status stringifies
to "undefined") or `bookingEnabled === false`. -/
def serviceInactiveGate (svc : ServiceRow) : Bool :=
  (match svc.status with
   | some s => !(upperStr s == "ACTIVE")
   | none => true) || svc.bookingEnabled == some false

/-- The `where` clause of the bookings query: same service, status PENDING or
CONFIRMED, `scheduledAt` inside the closed window, the team member filter when
`teamMemberId` is truthy, and the id exclusion when `excludeBookingId` is
truthy. -/
def bookingWhere (serviceId : String) (windowStart windowEnd : Int)
    (teamMemberId excludeBookingId : Option String) (b : BookingRow) : Bool :=
  b.serviceId == serviceId
    && (b.status == "PENDING" || b.status == "CONFIRMED")
    && decide (windowStart ≤ b.scheduledAt) && decide (b.scheduledAt ≤ windowEnd)
    && (if truthyStr teamMemberId then b.assignedTeamMemberId == teamMemberId else true)
    && (if truthyStr excludeBookingId then !(some b.id == excludeBookingId) else true)

/-- The bookings fetched by the detector for a given store and parameters. -/
def fetchedBookings (db : ConflictDb) (p : CheckConflictParams)
    (windowStart windowEnd : Int) : List BookingRow :=
  db.bookings.filter (bookingWhere p.serviceId windowStart windowEnd p.teamMemberId p.excludeBookingId)

/-- A buffer-expanded busy window derived from a fetched booking. -/
structure BusyWindow where
  id : String
  start : Int
  stop : Int
deriving DecidableEq, Repr

/-- `checkBookingConflict`: service gate, then daily-cap check, then the
first-overlap check over buffer-expanded candidate windows. -/
def checkBookingConflict (db : ConflictDb) (p : CheckConflictParams) : ConflictResult :=
  match db.services.find? (fun s => s.id == p.serviceId) with
  | none => ⟨true, some "SERVICE_INACTIVE", none⟩
  | some svc =>
    if serviceInactiveGate svc then ⟨true, some "SERVICE_INACTIVE", none⟩
    else
      let buffer := svc.bufferTime.getD 0
      let maxDaily := svc.maxDailyBookings.getD 0
      let startDt := p.start
      let endDt := addMinutes startDt p.durationMinutes
      let windowStart := addMinutes (startOfDay startDt) (-(max 60 buffer))
      let windowEnd := addMinutes (endOfDay startDt) (max 60 buffer)
      let bookings := fetchedBookings db p windowStart windowEnd
      let busy : List BusyWindow := bookings.map (fun b =>
        ⟨b.id, addMinutes b.scheduledAt (-buffer),
          addMinutes (addMinutes b.scheduledAt b.duration) buffer⟩)
      let overlapStep : ConflictResult :=
        match busy.find? (fun b => overlaps startDt endDt b.start b.stop) with
        | some b => ⟨true, some "OVERLAP", some b.id⟩
        | none => ⟨false, none, none⟩
      if maxDaily > 0 then
        let dayStart := startOfDay startDt
        let dayEnd := endOfDay startDt
        let countToday := (bookings.filter (fun b =>
          overlaps b.scheduledAt (addMinutes b.scheduledAt b.duration) dayStart dayEnd)).length
        if (countToday : Int) ≥ maxDaily then ⟨true, some "DAILY_CAP", none⟩
        else overlapStep
      else overlapStep

/-! ## Pricing engine (calculateServicePrice) -/

/-- A named signed cents adjustment in a price breakdown. -/
structure PriceComponent where
  code : String
  label : String
  amountCents : Int
deriving DecidableEq, Repr

/-- The computed price breakdown. -/
structure PriceBreakdown where
  currency : String
  baseCents : Int
  components : List PriceComponent
  subtotalCents : Int
  totalCents : Int
deriving DecidableEq, Repr

/-- A peak-hour range, `[startHour, endHour)` in local hours. -/
structure PeakRange where
  startHour : Int
  endHour : Int
deriving DecidableEq, Repr

/-- The options object of `calculateServicePrice`.  The promotion resolver is
modelled as a pure function from the promo code and service id to an optional
component (the awaited result of the injected resolver). -/
structure PricingOptions where
  currency : Option String
  weekendSurchargePercent : Option Frac
  emergencySurchargePercent : Option Frac
  peakHours : Option (List PeakRange)
  peakSurchargePercent : Option Frac
  promoCode : Option String
  promoResolver : Option (String → String → Option PriceComponent)

/-- The empty options object (`params.options || {}`). -/
def emptyPricingOptions : PricingOptions := ⟨none, none, none, none, none, none, none⟩

/-- A row of the organization settings table. -/
structure OrgSettingsRow where
  tenantId : Option String
  defaultCurrency : Option String
deriving DecidableEq, Repr

/-- A row of the exchange-rate table. -/
structure ExchangeRateRow where
  base : String
  target : String
  rate : Frac
  fetchedAt : Int
deriving DecidableEq, Repr

/-- The record store visible to the pricing engine. -/
structure PricingDb where
  services : List ServiceRow
  orgSettings : List OrgSettingsRow
  exchangeRates : List ExchangeRateRow

/-- Parameters of `calculateServicePrice`. -/
structure PricingParams where
  serviceId : String
  scheduledAt : Int
  durationMinutes : Option Int
  options : PricingOptions

/-- `percentOf`: `Math.round (amountCents * percent)`. -/
def percentOf (amountCents : Int) (percent : Frac) : Int := mulRound amountCents percent

/-- `isWeekend`: the local weekday is Sunday (0) or Saturday (6). -/
def isWeekend (t : Int) : Bool := jsGetDay t == 0 || jsGetDay t == 6

/-- `isWithinPeak`: the local hour falls in some `[startHour, endHour)` range. -/
def isWithinPeak (t : Int) (ranges : List PeakRange) : Bool :=
  ranges.any (fun r => decide (r.startHour ≤ jsGetHours t) && decide (jsGetHours t < r.endHour))

/-- Modelled from the spec: `convertCents` lives in the exchange module, which
is not part of the extracted sources; per the spec every cent amount is
converted through the rate and rounded to the nearest cent independently. -/
def convertCents (cents : Int) (rate : Frac) : Int := mulRound cents rate

/-- The inactive test of the pricing engine: when the status field is truthy
its uppercase form must differ from ACTIVE, otherwise the legacy `active`
boolean must be literally `false`. -/
def pricingInactiveGate (svc : ServiceRow) : Bool :=
  match svc.status with
  | some s => if s == "" then svc.active == some false else !(upperStr s == "ACTIVE")
  | none => svc.active == some false

/-- The zero breakdown returned for a missing or inactive service. -/
def zeroBreakdown : PriceBreakdown := ⟨"USD", 0, [], 0, 0⟩

/-- The base currency resolution: the environment base currency (falsy falls
back to USD), overridden by a truthy tenant default currency from the first
organization-settings row of the tenant of the service. -/
def resolveBaseCurrency (db : PricingDb) (envBase : Option String) (svc : ServiceRow) : String :=
  let fromEnv := match envBase with
    | some e => if e == "" then "USD" else e
    | none => "USD"
  match svc.tenantId with
  | some tid =>
    if tid == "" then fromEnv
    else
      match db.orgSettings.find? (fun o => o.tenantId == some tid) with
      | some org =>
        match org.defaultCurrency with
        | some c => if c == "" then fromEnv else c
        | none => fromEnv
      | none => fromEnv
  | none => fromEnv

/-- The sum of the component amounts (`components.reduce` of the code). -/
def sumAmounts (cs : List PriceComponent) : Int :=
  cs.foldl (fun s c => s + c.amountCents) 0

/-- The duration-overage push: charged pro-rata over the standard duration
when the requested duration exceeds it and the base is positive. -/
def overageComponents (baseCents standardDuration durationMinutes : Int) :
    List PriceComponent :=
  if durationMinutes > standardDuration ∧ baseCents > 0 then
    let extra := durationMinutes - standardDuration
    let overageCents := mulRound baseCents ⟨extra, standardDuration⟩
    if overageCents > 0 then [⟨"OVERAGE", "Duration overage", overageCents⟩] else []
  else []

/-- The weekend-surcharge push: when the percent is positive, the instant is
a weekend, and the rounded amount is positive. -/
def weekendComponents (scheduledAt baseCents : Int) (options : PricingOptions) :
    List PriceComponent :=
  let weekendPct := options.weekendSurchargePercent.getD ⟨15, 100⟩
  if fracPos weekendPct ∧ isWeekend scheduledAt then
    let w := percentOf baseCents weekendPct
    if w > 0 then [⟨"WEEKEND", "Weekend surcharge", w⟩] else []
  else []

/-- The peak-hours-surcharge push. -/
def peakComponents (scheduledAt baseCents : Int) (options : PricingOptions) :
    List PriceComponent :=
  let peakRanges := options.peakHours.getD [⟨10, 12⟩, ⟨15, 17⟩]
  let peakPct := options.peakSurchargePercent.getD ⟨10, 100⟩
  if fracPos peakPct ∧ peakRanges ≠ [] ∧ isWithinPeak scheduledAt peakRanges then
    let pk := percentOf baseCents peakPct
    if pk > 0 then [⟨"PEAK", "Peak hours surcharge", pk⟩] else []
  else []

/-- The emergency-surcharge push (percent defaults to zero). -/
def emergencyComponents (baseCents : Int) (options : PricingOptions) :
    List PriceComponent :=
  let emergencyPct := options.emergencySurchargePercent.getD ⟨0, 1⟩
  if fracPos emergencyPct then
    let e := percentOf baseCents emergencyPct
    if e > 0 then [⟨"EMERGENCY", "Emergency surcharge", e⟩] else []
  else []

/-- The promotion push: a truthy promo code with a resolver present, whose
truthy resolution is pushed as is. -/
def promoComponents (serviceId : String) (options : PricingOptions) :
    List PriceComponent :=
  if truthyStr options.promoCode then
    match options.promoResolver, options.promoCode with
    | some resolver, some code =>
      match resolver code serviceId with
      | some discount => [discount]
      | none => []
    | _, _ => []
  else []

/-- The sequential component construction of `calculateServicePrice`: duration
overage, weekend surcharge, peak surcharge, emergency surcharge, then the
optional promotion component, each pushed only under the conditions of the
code. -/
def buildComponents (serviceId : String) (scheduledAt : Int)
    (baseCents standardDuration durationMinutes : Int) (options : PricingOptions) :
    List PriceComponent :=
  overageComponents baseCents standardDuration durationMinutes
    ++ weekendComponents scheduledAt baseCents options
    ++ peakComponents scheduledAt baseCents options
    ++ emergencyComponents baseCents options
    ++ promoComponents serviceId options

/-- The descending order on `fetchedAt` used by the latest-rate query. -/
def fetchedDesc (a b : ExchangeRateRow) : Prop := a.fetchedAt ≥ b.fetchedAt

instance : DecidableRel fetchedDesc := fun a b => by
  unfold fetchedDesc; infer_instance

instance : IsTotal ExchangeRateRow fetchedDesc where
  total a b := le_total b.fetchedAt a.fetchedAt

instance : IsTrans ExchangeRateRow fetchedDesc where
  trans _ _ _ hab hbc := le_trans hbc hab

/-- The most recently fetched exchange-rate row for the pair: filter the table
to the pair, order by `fetchedAt` descending, take the first row. -/
def findLatestRate (rows : List ExchangeRateRow) (base target : String) : Option ExchangeRateRow :=
  ((rows.filter (fun r => r.base == base && r.target == target)).insertionSort
    fetchedDesc).head?

/-- The target currency: a truthy `options.currency`, else the base. -/
def resolveTargetCurrency (options : PricingOptions) (baseCurrency : String) : String :=
  match options.currency with
  | some c => if c == "" then baseCurrency else c
  | none => baseCurrency

/-- The base price in cents: `Math.round ((basePrice ?? price ?? 0) * 100)`. -/
def svcBaseCents (svc : ServiceRow) : Int :=
  mulRound 100 ((svc.basePrice.orElse (fun _ => svc.price)).getD ⟨0, 1⟩)

/-- The standard duration: `Math.max (15, svc.duration ?? 60)`. -/
def svcStandardDuration (svc : ServiceRow) : Int := max 15 (svc.duration.getD 60)

/-- `calculateServicePrice`: service gate, base currency resolution, component
construction, then the optional currency conversion step. -/
def calculateServicePrice (db : PricingDb) (envBase : Option String)
    (p : PricingParams) : PriceBreakdown :=
  let options := p.options
  match db.services.find? (fun s => s.id == p.serviceId) with
  | none => zeroBreakdown
  | some svc =>
    if pricingInactiveGate svc then zeroBreakdown
    else
      let baseCurrency := resolveBaseCurrency db envBase svc
      let targetCurrency := resolveTargetCurrency options baseCurrency
      let standardDuration := svcStandardDuration svc
      let baseCents := svcBaseCents svc
      let durationMinutes := max 15 (p.durationMinutes.getD standardDuration)
      let components := buildComponents p.serviceId p.scheduledAt baseCents
        standardDuration durationMinutes options
      let subtotalCents := baseCents
      let totalBeforeCurrency := subtotalCents + sumAmounts components
      if targetCurrency ≠ baseCurrency then
        let latestRate := findLatestRate db.exchangeRates baseCurrency targetCurrency
        let rate := (latestRate.map (fun r => r.rate)).getD ⟨1, 1⟩
        let convertedBase := convertCents baseCents rate
        let convertedComponents := components.map (fun c =>
          ⟨c.code, c.label, convertCents c.amountCents rate⟩)
        let convertedSubtotal := convertedBase
        let convertedTotal := convertedSubtotal + sumAmounts convertedComponents
        ⟨targetCurrency, convertedBase, convertedComponents, convertedSubtotal, convertedTotal⟩
      else
        ⟨baseCurrency, baseCents, components, subtotalCents, totalBeforeCurrency⟩

/-! ## Auto-assignment engine -/

/-- The team-member fields selected as an assignment candidate. -/
structure TeamMemberInfo where
  id : String
  name : String
  email : Option String
  specialties : Option (List String)
deriving DecidableEq, Repr

/-- A candidate with its computed workload count and skill-match flag. -/
structure CandidateWorkload where
  tm : TeamMemberInfo
  count : Nat
  skillMatch : Bool
deriving DecidableEq, Repr

/-- The comparator of `selectLoadBased`: ascending workload count, ties broken
by candidate id ascending (`localeCompare` modelled as code-point order). -/
def loadOrder (a b : CandidateWorkload) : Prop :=
  a.count < b.count ∨ (a.count = b.count ∧ a.tm.id ≤ b.tm.id)

instance : DecidableRel loadOrder := fun a b => by
  unfold loadOrder; infer_instance

instance : IsTotal CandidateWorkload loadOrder where
  total a b := by
    rcases Nat.lt_trichotomy a.count b.count with h | h | h
    · exact Or.inl (Or.inl h)
    · rcases le_total a.tm.id b.tm.id with h2 | h2
      · exact Or.inl (Or.inr ⟨h, h2⟩)
      · exact Or.inr (Or.inr ⟨h.symm, h2⟩)
    · exact Or.inr (Or.inl h)

instance : IsTrans CandidateWorkload loadOrder where
  trans a b c hab hbc := by
    rcases hab with h1 | ⟨e1, l1⟩
    · rcases hbc with h2 | ⟨e2, _⟩
      · exact Or.inl (h1.trans h2)
      · exact Or.inl (e2 ▸ h1)
    · rcases hbc with h2 | ⟨e2, l2⟩
      · exact Or.inl (e1 ▸ h2)
      · exact Or.inr ⟨e1.trans e2, l1.trans l2⟩

/-- The comparator of the round-robin ordering: candidate id ascending. -/
def idOrder (a b : CandidateWorkload) : Prop := a.tm.id ≤ b.tm.id

instance : DecidableRel idOrder := fun a b => by
  unfold idOrder; infer_instance

instance : IsTotal CandidateWorkload idOrder where
  total a b := le_total a.tm.id b.tm.id

instance : IsTrans CandidateWorkload idOrder where
  trans _ _ _ hab hbc := le_trans hab hbc

/-- `selectLoadBased`: sort a copy of the candidates by the comparator and
take the first element (null on an empty pool). -/
def selectLoadBased (candidates : List CandidateWorkload) : Option CandidateWorkload :=
  (candidates.insertionSort loadOrder).head?

/-- `selectSkillBased`: restrict to skill matches when any exist, then apply
the load-based selection. -/
def selectSkillBased (candidates : List CandidateWorkload) : Option CandidateWorkload :=
  if candidates.isEmpty then none
  else
    let skillMatches := candidates.filter (fun entry => entry.skillMatch)
    if !skillMatches.isEmpty then selectLoadBased skillMatches
    else selectLoadBased candidates

/-- The rotation cache, an association list from cache key to last-assigned
candidate id. -/
def RotationCache := List (String × String)

/-- Cache read: value of the first entry with the key. -/
def cacheGet (c : RotationCache) (k : String) : Option String :=
  (c.find? (fun e => e.1 == k)).map (fun e => e.2)

/-- Cache write: replace any entry with the key by the new value. -/
def cacheSet (c : RotationCache) (k v : String) : RotationCache :=
  (k, v) :: c.filter (fun e => !(e.1 == k))

/-- The tenant-scoped rotation cache key. -/
def rotationKey (tenantId : Option String) : String :=
  "service-requests:auto-assign:last-member:" ++ tenantId.getD "default"

/-- `Array.prototype.findIndex`: index of the first match, -1 when absent. -/
def jsFindIndex (ordered : List CandidateWorkload) (lid : String) : Int :=
  match ordered.findIdx? (fun entry => entry.tm.id == lid) with
  | some k => (k : Int)
  | none => -1

/-- The index selected by round robin: the candidate cyclically after the
last-assigned id when that id is truthy and still present in the ordered
pool, the first candidate otherwise. -/
def rrNextIndex (ordered : List CandidateWorkload) (last : Option String) : Nat :=
  let currentIndex : Int := if truthyStr last then jsFindIndex ordered (last.getD "") else -1
  if currentIndex ≥ 0 then (currentIndex.toNat + 1) % ordered.length else 0

/-- `selectRoundRobin`: order candidates by id, read the last-assigned id from
the rotation cache, pick the next candidate cyclically after it (the first
when there is no prior state or the prior id is no longer a candidate), and
write the chosen id back to the cache. -/
def selectRoundRobin (candidates : List CandidateWorkload) (tenantId : Option String)
    (cache : RotationCache) : Option CandidateWorkload × RotationCache :=
  if candidates.isEmpty then (none, cache)
  else
    let ordered := candidates.insertionSort idOrder
    let key := rotationKey tenantId
    let nextIndex : Nat := rrNextIndex ordered (cacheGet cache key)
    match ordered[nextIndex]? with
    | some chosen => (some chosen, cacheSet cache key chosen.tm.id)
    | none => (none, cache)

/-- Modelled from the spec: the service-request settings schema is not part of
the extracted sources; per the spec it carries the auto-assign toggle, the
strategy tag, and the default target status. -/
structure ServiceRequestSettings where
  autoAssign : Bool
  autoAssignStrategy : String
  defaultRequestStatus : String
deriving DecidableEq, Repr

/-- `resolveAssignee`: dispatch on the strategy tag, defaulting to the
load-based strategy; only the round-robin branch touches the cache. -/
def resolveAssignee (candidates : List CandidateWorkload) (settings : ServiceRequestSettings)
    (tenantId : Option String) (cache : RotationCache) :
    Option CandidateWorkload × RotationCache :=
  if settings.autoAssignStrategy == "skill_based" then (selectSkillBased candidates, cache)
  else if settings.autoAssignStrategy == "round_robin" then
    selectRoundRobin candidates tenantId cache
  else (selectLoadBased candidates, cache)

/-- `resolveAssignmentStatus`: the configured target status when it is
ASSIGNED or IN_PROGRESS, otherwise ASSIGNED. -/
def resolveAssignmentStatus (settings : ServiceRequestSettings) : String :=
  if settings.defaultRequestStatus == "ASSIGNED"
      || settings.defaultRequestStatus == "IN_PROGRESS" then
    settings.defaultRequestStatus
  else "ASSIGNED"

/-- A row of the service-requests table (the columns the engine touches). -/
structure ServiceRequestRow where
  id : String
  tenantId : Option String
  serviceId : Option String
  status : String
  assignedTeamMemberId : Option String
  assignedAt : Option Int
deriving DecidableEq, Repr

/-- A row of the team-members table. -/
structure TeamMemberRow where
  id : String
  tenantId : Option String
  name : String
  email : Option String
  status : String
  isAvailable : Bool
  specialties : Option (List String)
deriving DecidableEq, Repr

/-- The record store visible to the assignment engine. -/
structure AssignDb where
  serviceRequests : List ServiceRequestRow
  teamMembers : List TeamMemberRow
  services : List ServiceRow
deriving DecidableEq, Repr

/-- The external collaborators of the assignment engine: the multi-tenancy
flag, the settings fetch (which may fail, triggering the defaults), the
default settings constant, and the current instant. -/
structure AssignEnv where
  multiTenancy : Bool
  settingsFetch : Except Unit ServiceRequestSettings
  defaultSettings : ServiceRequestSettings
  now : Int

/-- The settings used by the engine: the fetched settings, or the defaults
when the fetch fails. -/
def resolvedSettings (env : AssignEnv) : ServiceRequestSettings :=
  match env.settingsFetch with
  | Except.ok s => s
  | Except.error _ => env.defaultSettings

/-- The candidate pool query: active, available team members, tenant-scoped
when multi-tenancy is enabled and the request has a truthy tenant id. -/
def candidatePool (db : AssignDb) (env : AssignEnv) (tenantId : Option String) :
    List TeamMemberRow :=
  db.teamMembers.filter (fun tm =>
    tm.status == "active" && tm.isAvailable
      && (if env.multiTenancy && truthyStr tenantId then tm.tenantId == tenantId else true))

/-- The selected candidate fields of a team-member row. -/
def toCandidateInfo (tm : TeamMemberRow) : TeamMemberInfo :=
  ⟨tm.id, tm.name, tm.email, tm.specialties⟩

/-- The workload count of one candidate: assigned service requests in status
ASSIGNED or IN_PROGRESS, tenant-scoped when multi-tenancy is enabled. -/
def workloadCount (db : AssignDb) (env : AssignEnv) (tenantId : Option String)
    (tmId : String) : Nat :=
  (db.serviceRequests.filter (fun r =>
    r.assignedTeamMemberId == some tmId
      && (r.status == "ASSIGNED" || r.status == "IN_PROGRESS")
      && (if env.multiTenancy && truthyStr tenantId then r.tenantId == tenantId else true))).length

/-- The category of the service relation of the request, when present. -/
def requestServiceCategory (db : AssignDb) (request : ServiceRequestRow) : Option String :=
  match request.serviceId with
  | some sid =>
    match db.services.find? (fun s => s.id == sid) with
    | some svc => svc.category
    | none => none
  | none => none

/-- The workload computation over the candidate pool. -/
def computeWorkloads (db : AssignDb) (env : AssignEnv) (tenantId : Option String)
    (category : Option String) (pool : List TeamMemberRow) : List CandidateWorkload :=
  pool.map (fun tm =>
    ⟨toCandidateInfo tm, workloadCount db env tenantId tm.id,
      if truthyStr category then (tm.specialties.getD []).contains (category.getD "") else false⟩)

/-- The update write of the engine: set the assignee, the assignment instant
and the target status on the request row. -/
def applyAssignment (db : AssignDb) (requestId memberId : String) (now : Int)
    (newStatus : String) : AssignDb :=
  ⟨db.serviceRequests.map (fun r =>
    if r.id == requestId then
      ⟨r.id, r.tenantId, r.serviceId, newStatus, some memberId, some now⟩
    else r), db.teamMembers, db.services⟩

/-- The updated row returned by the update write. -/
def updatedRequestRow (r : ServiceRequestRow) (memberId : String) (now : Int)
    (newStatus : String) : ServiceRequestRow :=
  ⟨r.id, r.tenantId, r.serviceId, newStatus, some memberId, some now⟩

/-- `autoAssignServiceRequest`: look up the request, return it unchanged when
it is already assigned, when auto-assign is disabled, or when the candidate
pool is empty; otherwise select a candidate by the configured strategy and
write the assignment.  Returns the result row together with the record store
and rotation cache after the call. -/
def autoAssignServiceRequest (db : AssignDb) (env : AssignEnv) (cache : RotationCache)
    (serviceRequestId : String) :
    Option ServiceRequestRow × AssignDb × RotationCache :=
  match db.serviceRequests.find? (fun r => r.id == serviceRequestId) with
  | none => (none, db, cache)
  | some request =>
    if truthyStr request.assignedTeamMemberId then (some request, db, cache)
    else
      let tenantId := if truthyStr request.tenantId then request.tenantId else none
      let settings := resolvedSettings env
      if !settings.autoAssign then (some request, db, cache)
      else
        let teamMembers := candidatePool db env tenantId
        if teamMembers.isEmpty then (some request, db, cache)
        else
          let category := requestServiceCategory db request
          let workloads := computeWorkloads db env tenantId category teamMembers
          match resolveAssignee workloads settings tenantId cache with
          | (none, cache2) => (some request, db, cache2)
          | (some candidate, cache2) =>
            let statusForAssignment := resolveAssignmentStatus settings
            let db2 := applyAssignment db request.id candidate.tm.id env.now statusForAssignment
            (some (updatedRequestRow request candidate.tm.id env.now statusForAssignment),
              db2, cache2)

/-- Iterated round-robin selection over a fixed pool: the list of picks of
`n` successive calls, threading the rotation cache. -/
def runRoundRobin (candidates : List CandidateWorkload) (tenantId : Option String) :
    Nat → RotationCache → List CandidateWorkload × RotationCache
  | 0, cache => ([], cache)
  | Nat.succ n, cache =>
    match selectRoundRobin candidates tenantId cache with
    | (none, cache2) => ([], cache2)
    | (some c, cache2) =>
      let rest := runRoundRobin candidates tenantId n cache2
      (c :: rest.1, rest.2)

/-- The claim-side slice of the bookings table used by the frame property:
the bookings of the service in status PENDING or CONFIRMED whose scheduled
instant lies inside the closed window, with the team-member scoping, but
without the id exclusion. -/
def windowBookings (bookings : List BookingRow) (serviceId : String)
    (teamMemberId : Option String) (windowStart windowEnd : Int) : List BookingRow :=
  bookings.filter (fun b =>
    b.serviceId == serviceId
      && (b.status == "PENDING" || b.status == "CONFIRMED")
      && decide (windowStart ≤ b.scheduledAt) && decide (b.scheduledAt ≤ windowEnd)
      && (if truthyStr teamMemberId then b.assignedTeamMemberId == teamMemberId else true))

/-! ## Concrete instances used by witnesses and counterexamples -/

/-- A concrete candidate pool exercising the load-based selection. -/
def poolW : List CandidateWorkload :=
  [⟨⟨"b", "B", none, none⟩, 2, false⟩, ⟨⟨"a", "A", none, none⟩, 2, false⟩,
   ⟨⟨"c", "C", none, none⟩, 1, true⟩]

/-- An INACTIVE service with no daily cap and an empty bookings table. -/
def dbInactive : ConflictDb :=
  ⟨[⟨"s1", none, none, some "INACTIVE", none, none, none, none, none, none, none⟩], []⟩

/-- A proposed window on the inactive service. -/
def pInactive : CheckConflictParams := ⟨"s1", 0, 60, none, none⟩

/-- An ACTIVE service with a single stored booking far from the proposal. -/
def dbClear : ConflictDb :=
  ⟨[⟨"s1", none, none, some "ACTIVE", none, none, none, none, none, none, none⟩],
   [⟨"b1", "s1", "PENDING", 0, 60, none⟩]⟩

/-- A proposed window not overlapping the stored booking. -/
def pClear : CheckConflictParams := ⟨"s1", 7200000, 60, none, none⟩

/-- An ACTIVE service with one stored booking the day before the proposal,
running past midnight into the proposed window. -/
def dbMissed : ConflictDb :=
  ⟨[⟨"s1", none, none, some "ACTIVE", none, none, none, none, none, none, none⟩],
   [⟨"A", "s1", "PENDING", 856800000, 300, none⟩]⟩

/-- A proposed window at 01:00 of day ten, overlapped by the stored booking
(22:00 of day nine, 300 minutes, hence up to 03:00 of day ten). -/
def pMissed : CheckConflictParams := ⟨"s1", 867600000, 60, none, none⟩

/-- An ACTIVE service with one stored booking inside the fetch window. -/
def dbHit : ConflictDb :=
  ⟨[⟨"s1", none, none, some "ACTIVE", none, none, none, none, none, none, none⟩],
   [⟨"A", "s1", "PENDING", 900000000, 60, none⟩]⟩

/-- A proposed window starting midway through the stored booking. -/
def pHit : CheckConflictParams := ⟨"s1", 901800000, 60, none, none⟩

/-- A second store agreeing with `dbHit` inside the fetch window but holding
an extra booking far outside it. -/
def dbHitExtra : ConflictDb :=
  ⟨[⟨"s1", none, none, some "ACTIVE", none, none, none, none, none, none, none⟩],
   [⟨"A", "s1", "PENDING", 900000000, 60, none⟩, ⟨"far", "s1", "PENDING", 0, 60, none⟩]⟩

/-- An ACTIVE service with a zero base price. -/
def svcZeroBase : ServiceRow :=
  ⟨"s1", none, none, some "ACTIVE", none, none, none, none, some ⟨0, 1⟩, none, none⟩

/-- An ACTIVE service with base price 100. -/
def svcSat : ServiceRow :=
  ⟨"s1", none, none, some "ACTIVE", none, none, none, none, some ⟨100, 1⟩, none, none⟩

/-- The default entry used to express list indexing totally. -/
def defaultCandidate : CandidateWorkload := ⟨⟨"", "", none, none⟩, 0, false⟩

/-- Total indexing into a candidate list. -/
def nth (l : List CandidateWorkload) (i : Nat) : CandidateWorkload :=
  (l[i]?).getD defaultCandidate

/-- A request already carrying an assignee. -/
def reqAssigned : ServiceRequestRow := ⟨"r1", none, none, "ASSIGNED", some "tm1", none⟩

/-- A store holding only the assigned request. -/
def dbAssigned : AssignDb := ⟨[reqAssigned], [], []⟩

/-- An environment with auto-assignment enabled and the load-based strategy. -/
def envAssigned : AssignEnv :=
  ⟨false, Except.ok ⟨true, "load_based", "ASSIGNED"⟩, ⟨true, "load_based", "ASSIGNED"⟩, 0⟩

/-! ## Theorems -/


/-- C2: every breakdown satisfies totalCents = subtotalCents + sum of the
component amounts, on every code path. -/
theorem calculateServicePrice_total_invariant (db : PricingDb) (envBase : Option String)
    (p : PricingParams) :
    (calculateServicePrice db envBase p).totalCents =
      (calculateServicePrice db envBase p).subtotalCents
        + sumAmounts (calculateServicePrice db envBase p).components := by
  unfold calculateServicePrice
  split
  · simp [zeroBreakdown, sumAmounts]
  · split
    · simp [zeroBreakdown, sumAmounts]
    · simp only []
      split
      · rfl
      · rfl

/-- C4: a missing serviceId, or one resolving to a service whose stored
status is not ACTIVE, yields the zero breakdown. -/
theorem calculateServicePrice_inactive_zero (db : PricingDb) (envBase : Option String)
    (p : PricingParams)
    (h : db.services.find? (fun s => s.id == p.serviceId) = none ∨
      ∃ svc st, db.services.find? (fun s => s.id == p.serviceId) = some svc ∧
        svc.status = some st ∧ st ≠ "" ∧ upperStr st ≠ "ACTIVE") :
    calculateServicePrice db envBase p = ⟨"USD", 0, [], 0, 0⟩ := by
  rcases h with h | ⟨svc, st, hfind, hst, hne, hup⟩
  · unfold calculateServicePrice
    rw [h]
    rfl
  · unfold calculateServicePrice
    rw [hfind]
    have hgate : pricingInactiveGate svc = true := by
      unfold pricingInactiveGate
      rw [hst]
      simp [hne, hup]
    simp [hgate, zeroBreakdown]

/-- Witness for C4 at a concrete INACTIVE service. -/
theorem calculateServicePrice_inactive_zero_test :
    calculateServicePrice
      ⟨[⟨"s1", none, none, some "INACTIVE", none, none, none, none, some ⟨100, 1⟩, none, none⟩], [], []⟩
      none ⟨"s1", 0, none, emptyPricingOptions⟩ = ⟨"USD", 0, [], 0, 0⟩ :=
  calculateServicePrice_inactive_zero _ _ _
    (Or.inr ⟨_, "INACTIVE", rfl, rfl, by decide, by decide⟩)

/-- C5: on a nonempty pool, the load-based selection returns a candidate of
minimal workload, with the least id among minimal-workload candidates. -/
theorem selectLoadBased_min (candidates : List CandidateWorkload)
    (h : candidates ≠ []) :
    ∃ c, selectLoadBased candidates = some c ∧ c ∈ candidates ∧
      (∀ d ∈ candidates, c.count ≤ d.count) ∧
      (∀ d ∈ candidates, d.count = c.count → c.tm.id ≤ d.tm.id) := by
  have hperm := List.perm_insertionSort loadOrder candidates
  have hsorted := List.sorted_insertionSort loadOrder candidates
  cases hL : candidates.insertionSort loadOrder with
  | nil =>
    exact absurd ((hL ▸ hperm).symm.eq_nil) h
  | cons c rest =>
    refine ⟨c, ?_, ?_, ?_, ?_⟩
    · simp [selectLoadBased, hL]
    · exact hperm.mem_iff.mp (hL ▸ List.mem_cons_self c rest)
    · intro d hd
      have hdL : d ∈ c :: rest := hL ▸ hperm.mem_iff.mpr hd
      rcases List.mem_cons.mp hdL with rfl | hdr
      · exact le_refl _
      · have := List.rel_of_sorted_cons (hL ▸ hsorted) d hdr
        rcases this with hlt | ⟨heq, _⟩
        · exact le_of_lt hlt
        · exact le_of_eq heq
    · intro d hd heq
      have hdL : d ∈ c :: rest := hL ▸ hperm.mem_iff.mpr hd
      rcases List.mem_cons.mp hdL with rfl | hdr
      · exact le_refl _
      · have := List.rel_of_sorted_cons (hL ▸ hsorted) d hdr
        rcases this with hlt | ⟨_, hle⟩
        · exact absurd heq (Nat.ne_of_gt hlt)
        · exact hle

/-- Witness for C5 at a concrete three-candidate pool. -/
theorem selectLoadBased_min_test :
    ∃ c, selectLoadBased poolW = some c ∧ c ∈ poolW ∧
      (∀ d ∈ poolW, c.count ≤ d.count) ∧
      (∀ d ∈ poolW, d.count = c.count → c.tm.id ≤ d.tm.id) :=
  selectLoadBased_min poolW (by decide)

/-- C3 amended: under an ACTIVE booking-enabled service with no daily cap,
no conflict is reported when no stored booking overlaps, and the overlap
test is the half-open interval test (touching boundaries never conflict). -/
theorem checkBookingConflict_no_overlap (db : ConflictDb) (p : CheckConflictParams)
    (svc : ServiceRow)
    (hfind : db.services.find? (fun s => s.id == p.serviceId) = some svc)
    (hgate : serviceInactiveGate svc = false)
    (hcap : svc.maxDailyBookings.getD 0 ≤ 0)
    (hno : ∀ b ∈ db.bookings,
      overlaps p.start (addMinutes p.start p.durationMinutes)
        (addMinutes b.scheduledAt (-(svc.bufferTime.getD 0)))
        (addMinutes (addMinutes b.scheduledAt b.duration) (svc.bufferTime.getD 0)) = false) :
    checkBookingConflict db p = ⟨false, none, none⟩ ∧
      (∀ aS aE bS bE : Int, overlaps aS aE bS bE = true ↔ (aS < bE ∧ bS < aE)) ∧
      (∀ aS aE bS bE : Int, aE = bS ∨ bE = aS → overlaps aS aE bS bE = false) := by
  refine ⟨?_, ?_, ?_⟩
  · unfold checkBookingConflict
    rw [hfind]
    have hcap2 : ¬(svc.maxDailyBookings.getD 0 > 0) := not_lt.mpr hcap
    have hfindnone :
        ((fetchedBookings db p
            (addMinutes (startOfDay p.start) (-(max 60 (svc.bufferTime.getD 0))))
            (addMinutes (endOfDay p.start) (max 60 (svc.bufferTime.getD 0)))).map
          (fun b => (⟨b.id, addMinutes b.scheduledAt (-(svc.bufferTime.getD 0)),
            addMinutes (addMinutes b.scheduledAt b.duration) (svc.bufferTime.getD 0)⟩ :
              BusyWindow))).find?
          (fun b => overlaps p.start (addMinutes p.start p.durationMinutes) b.start b.stop)
          = none := by
      rw [List.find?_eq_none]
      intro x hx
      obtain ⟨b, hb, rfl⟩ := List.mem_map.mp hx
      have hbdb : b ∈ db.bookings := List.mem_of_mem_filter hb
      simp [hno b hbdb]
    simp [hgate, hcap2, hfindnone]
  · intro aS aE bS bE
    simp [overlaps]
  · rintro aS aE bS bE (rfl | rfl) <;> simp [overlaps]

/-- C3 counterexample: a service with no daily cap and no stored bookings at
all (so every proposed window is non-overlapping), yet the result is not
conflict-free, because the service is INACTIVE. -/
theorem checkBookingConflict_no_overlap_cex :
    (dbInactive.services.head?.map (fun s => s.maxDailyBookings.getD 0)) = some 0 ∧
      dbInactive.bookings = [] ∧
      checkBookingConflict dbInactive pInactive = ⟨true, some "SERVICE_INACTIVE", none⟩ := by
  decide

/-- Witness for C3 at a concrete clear schedule. -/
theorem checkBookingConflict_no_overlap_test :
    checkBookingConflict dbClear pClear = ⟨false, none, none⟩ ∧
      (∀ aS aE bS bE : Int, overlaps aS aE bS bE = true ↔ (aS < bE ∧ bS < aE)) ∧
      (∀ aS aE bS bE : Int, aE = bS ∨ bE = aS → overlaps aS aE bS bE = false) :=
  checkBookingConflict_no_overlap dbClear pClear
    ⟨"s1", none, none, some "ACTIVE", none, none, none, none, none, none, none⟩
    rfl (by decide) (by decide) (by decide)

/-- C1 amended: under an ACTIVE booking-enabled service with no daily cap, a
stored PENDING or CONFIRMED booking of the same service whose scheduled
instant lies inside the expanded fetch window, which passes the team-member
scoping and the id exclusion, and whose buffer-expanded window intersects the
proposed window, forces an OVERLAP conflict whose conflicting id is the id of
some truly overlapping fetched booking. -/
theorem checkBookingConflict_reports_overlap (db : ConflictDb) (p : CheckConflictParams)
    (svc : ServiceRow) (A : BookingRow)
    (hfind : db.services.find? (fun s => s.id == p.serviceId) = some svc)
    (hgate : serviceInactiveGate svc = false)
    (hcap : svc.maxDailyBookings.getD 0 ≤ 0)
    (hA : A ∈ db.bookings)
    (hsvc : A.serviceId = p.serviceId)
    (hst : A.status = "PENDING" ∨ A.status = "CONFIRMED")
    (hwin1 : addMinutes (startOfDay p.start) (-(max 60 (svc.bufferTime.getD 0))) ≤ A.scheduledAt)
    (hwin2 : A.scheduledAt ≤ addMinutes (endOfDay p.start) (max 60 (svc.bufferTime.getD 0)))
    (hteam : truthyStr p.teamMemberId = true → A.assignedTeamMemberId = p.teamMemberId)
    (hexcl : truthyStr p.excludeBookingId = true → ¬(some A.id = p.excludeBookingId))
    (hov : overlaps p.start (addMinutes p.start p.durationMinutes)
      (addMinutes A.scheduledAt (-(svc.bufferTime.getD 0)))
      (addMinutes (addMinutes A.scheduledAt A.duration) (svc.bufferTime.getD 0)) = true) :
    ∃ B : BookingRow, B ∈ db.bookings ∧
      checkBookingConflict db p = ⟨true, some "OVERLAP", some B.id⟩ ∧
      overlaps p.start (addMinutes p.start p.durationMinutes)
        (addMinutes B.scheduledAt (-(svc.bufferTime.getD 0)))
        (addMinutes (addMinutes B.scheduledAt B.duration) (svc.bufferTime.getD 0)) = true := by
  have hAfetched : A ∈ fetchedBookings db p
      (addMinutes (startOfDay p.start) (-(max 60 (svc.bufferTime.getD 0))))
      (addMinutes (endOfDay p.start) (max 60 (svc.bufferTime.getD 0))) := by
    refine List.mem_filter.mpr ⟨hA, ?_⟩
    unfold bookingWhere
    have ht : (if truthyStr p.teamMemberId then A.assignedTeamMemberId == p.teamMemberId
        else true) = true := by
      by_cases h : truthyStr p.teamMemberId = true
      · simp [h, hteam h]
      · simp [Bool.not_eq_true] at h
        simp [h]
    have he : (if truthyStr p.excludeBookingId then !(some A.id == p.excludeBookingId)
        else true) = true := by
      by_cases h : truthyStr p.excludeBookingId = true
      · simpa [h] using hexcl h
      · simp [Bool.not_eq_true] at h
        simp [h]
    rcases hst with hst | hst <;> simp [hsvc, hst, hwin1, hwin2, ht, he]
  have hbusy : (⟨A.id, addMinutes A.scheduledAt (-(svc.bufferTime.getD 0)),
      addMinutes (addMinutes A.scheduledAt A.duration) (svc.bufferTime.getD 0)⟩ : BusyWindow) ∈
      (fetchedBookings db p
        (addMinutes (startOfDay p.start) (-(max 60 (svc.bufferTime.getD 0))))
        (addMinutes (endOfDay p.start) (max 60 (svc.bufferTime.getD 0)))).map
      (fun b => (⟨b.id, addMinutes b.scheduledAt (-(svc.bufferTime.getD 0)),
        addMinutes (addMinutes b.scheduledAt b.duration) (svc.bufferTime.getD 0)⟩ : BusyWindow)) :=
    List.mem_map.mpr ⟨A, hAfetched, rfl⟩
  have hsome : (((fetchedBookings db p
        (addMinutes (startOfDay p.start) (-(max 60 (svc.bufferTime.getD 0))))
        (addMinutes (endOfDay p.start) (max 60 (svc.bufferTime.getD 0)))).map
      (fun b => (⟨b.id, addMinutes b.scheduledAt (-(svc.bufferTime.getD 0)),
        addMinutes (addMinutes b.scheduledAt b.duration) (svc.bufferTime.getD 0)⟩ : BusyWindow))).find?
      (fun b => overlaps p.start (addMinutes p.start p.durationMinutes) b.start b.stop)).isSome := by
    rw [List.find?_isSome]
    exact ⟨_, hbusy, hov⟩
  obtain ⟨w, hw⟩ := Option.isSome_iff_exists.mp hsome
  have hwp := List.find?_some hw
  have hwmem := List.mem_of_find?_eq_some hw
  obtain ⟨B, hBfetched, hBw⟩ := List.mem_map.mp hwmem
  refine ⟨B, List.mem_of_mem_filter hBfetched, ?_, ?_⟩
  · unfold checkBookingConflict
    rw [hfind]
    have hcap2 : ¬(svc.maxDailyBookings.getD 0 > 0) := not_lt.mpr hcap
    simp [hgate, hcap2, hw, ← hBw]
  · rw [← hBw] at hwp
    exact hwp

/-- C1 counterexample: the stored PENDING booking of the same service truly
overlaps the proposed window (no exclusion, no buffer, no cap, ACTIVE
service), yet the detector reports no conflict, because the scheduled
instant of the stored booking lies before the expanded fetch window. -/
theorem checkBookingConflict_reports_overlap_cex :
    (⟨"A", "s1", "PENDING", 856800000, 300, none⟩ : BookingRow) ∈ dbMissed.bookings ∧
      pMissed.excludeBookingId = none ∧
      overlaps pMissed.start (addMinutes pMissed.start pMissed.durationMinutes)
        856800000 (addMinutes 856800000 300) = true ∧
      checkBookingConflict dbMissed pMissed = ⟨false, none, none⟩ := by
  decide

/-- Witness for C1 at a concrete overlapping booking inside the window. -/
theorem checkBookingConflict_reports_overlap_test :
    ∃ B : BookingRow, B ∈ dbHit.bookings ∧
      checkBookingConflict dbHit pHit = ⟨true, some "OVERLAP", some B.id⟩ ∧
      overlaps pHit.start (addMinutes pHit.start pHit.durationMinutes)
        (addMinutes B.scheduledAt (-(ServiceRow.bufferTime
          ⟨"s1", none, none, some "ACTIVE", none, none, none, none, none, none, none⟩).getD 0))
        (addMinutes (addMinutes B.scheduledAt B.duration)
          ((ServiceRow.bufferTime
            ⟨"s1", none, none, some "ACTIVE", none, none, none, none, none, none, none⟩).getD 0))
        = true :=
  checkBookingConflict_reports_overlap dbHit pHit
    ⟨"s1", none, none, some "ACTIVE", none, none, none, none, none, none, none⟩
    ⟨"A", "s1", "PENDING", 900000000, 60, none⟩
    rfl (by decide) (by decide) (by decide) rfl (Or.inl rfl)
    (by decide) (by decide) (by decide) (by decide) (by decide)

/-- The fetch of the detector factors through the claim-side window slice:
only the id exclusion is applied on top of it. -/
theorem fetchedBookings_factor (db : ConflictDb) (p : CheckConflictParams)
    (windowStart windowEnd : Int) :
    fetchedBookings db p windowStart windowEnd =
      (windowBookings db.bookings p.serviceId p.teamMemberId windowStart windowEnd).filter
        (fun b => if truthyStr p.excludeBookingId then !(some b.id == p.excludeBookingId)
          else true) := by
  unfold fetchedBookings windowBookings
  rw [List.filter_filter]
  apply List.filter_congr
  intro b _
  simp [bookingWhere, Bool.and_assoc, Bool.and_comm, Bool.and_left_comm]

/-- C10: the detector result depends only on the services table and on the
window slice of the bookings table (same service, statuses PENDING and
CONFIRMED, team scoping, scheduled instant inside the buffer-expanded day
window); bookings outside that window never matter. -/
theorem checkBookingConflict_window_frame (db1 db2 : ConflictDb) (p : CheckConflictParams)
    (hs : db1.services = db2.services)
    (hb : ∀ svc, db1.services.find? (fun s => s.id == p.serviceId) = some svc →
      windowBookings db1.bookings p.serviceId p.teamMemberId
          (addMinutes (startOfDay p.start) (-(max 60 (svc.bufferTime.getD 0))))
          (addMinutes (endOfDay p.start) (max 60 (svc.bufferTime.getD 0))) =
        windowBookings db2.bookings p.serviceId p.teamMemberId
          (addMinutes (startOfDay p.start) (-(max 60 (svc.bufferTime.getD 0))))
          (addMinutes (endOfDay p.start) (max 60 (svc.bufferTime.getD 0)))) :
    checkBookingConflict db1 p = checkBookingConflict db2 p := by
  unfold checkBookingConflict
  rw [hs]
  cases hfind : db2.services.find? (fun s => s.id == p.serviceId) with
  | none => rfl
  | some svc =>
    have hfind1 : db1.services.find? (fun s => s.id == p.serviceId) = some svc := by
      rw [hs]; exact hfind
    have hfetch : fetchedBookings db1 p
        (addMinutes (startOfDay p.start) (-(max 60 (svc.bufferTime.getD 0))))
        (addMinutes (endOfDay p.start) (max 60 (svc.bufferTime.getD 0))) =
      fetchedBookings db2 p
        (addMinutes (startOfDay p.start) (-(max 60 (svc.bufferTime.getD 0))))
        (addMinutes (endOfDay p.start) (max 60 (svc.bufferTime.getD 0))) := by
      rw [fetchedBookings_factor, fetchedBookings_factor, hb svc hfind1]
    simp only [hfetch]

/-- Witness for C10: adding a booking far outside the window changes nothing. -/
theorem checkBookingConflict_window_frame_test :
    checkBookingConflict dbHit pHit = checkBookingConflict dbHitExtra pHit :=
  checkBookingConflict_window_frame dbHit dbHitExtra pHit rfl
    (fun svc h => by
      have h2 : some (⟨"s1", none, none, some "ACTIVE", none, none, none, none, none, none,
        none⟩ : ServiceRow) = some svc := h
      cases h2
      decide)

theorem overageComponents_no_weekend (baseCents standardDuration durationMinutes : Int) :
    (overageComponents baseCents standardDuration durationMinutes).any
      (fun c => c.code == "WEEKEND") = false := by
  unfold overageComponents
  split_ifs <;> simp

theorem peakComponents_no_weekend (scheduledAt baseCents : Int) (options : PricingOptions) :
    (peakComponents scheduledAt baseCents options).any
      (fun c => c.code == "WEEKEND") = false := by
  unfold peakComponents
  dsimp only
  split_ifs <;> simp

theorem emergencyComponents_no_weekend (baseCents : Int) (options : PricingOptions) :
    (emergencyComponents baseCents options).any
      (fun c => c.code == "WEEKEND") = false := by
  unfold emergencyComponents
  dsimp only
  split_ifs <;> simp

theorem promoComponents_no_weekend (serviceId : String) (options : PricingOptions)
    (hpromo : ∀ resolver code d, options.promoResolver = some resolver →
      options.promoCode = some code → resolver code serviceId = some d →
        d.code ≠ "WEEKEND") :
    (promoComponents serviceId options).any (fun c => c.code == "WEEKEND") = false := by
  unfold promoComponents
  split_ifs with h
  · cases hres : options.promoResolver with
    | none => simp
    | some resolver =>
      cases hcode : options.promoCode with
      | none => simp
      | some code =>
        cases hd : resolver code serviceId with
        | none => simp [hd]
        | some d =>
          have := hpromo resolver code d hres hcode hd
          simp [hd, this]
  · simp

theorem weekendComponents_any (scheduledAt baseCents : Int) (options : PricingOptions) :
    ((weekendComponents scheduledAt baseCents options).any
      (fun c => c.code == "WEEKEND") = true) ↔
    (fracPos (options.weekendSurchargePercent.getD ⟨15, 100⟩) = true ∧
      isWeekend scheduledAt = true ∧
      0 < percentOf baseCents (options.weekendSurchargePercent.getD ⟨15, 100⟩)) := by
  unfold weekendComponents
  dsimp only
  split_ifs with h1 h2
  · simp only [List.any_cons, List.any_nil]
    constructor
    · intro _
      exact ⟨h1.1, h1.2, h2⟩
    · intro _
      simp
  · simp only [List.any_nil]
    constructor
    · intro h
      exact absurd h (by simp)
    · intro h
      exact absurd h.2.2 h2
  · simp only [List.any_nil]
    constructor
    · intro h
      exact absurd h (by simp)
    · intro h
      exact absurd ⟨h.1, h.2.1⟩ h1

/-- C6 amended: for a service that passes the active gate, and promo
resolutions that never use the code WEEKEND, the breakdown carries a WEEKEND
component iff the instant is a local weekend, the configured percent
(default 15 percent) is positive, and the rounded surcharge is positive. -/
theorem calculateServicePrice_weekend_iff (db : PricingDb) (envBase : Option String)
    (p : PricingParams) (svc : ServiceRow)
    (hfind : db.services.find? (fun s => s.id == p.serviceId) = some svc)
    (hgate : pricingInactiveGate svc = false)
    (hpromo : ∀ resolver code d, p.options.promoResolver = some resolver →
      p.options.promoCode = some code → resolver code p.serviceId = some d →
        d.code ≠ "WEEKEND") :
    ((calculateServicePrice db envBase p).components.any
        (fun c => c.code == "WEEKEND") = true) ↔
      (isWeekend p.scheduledAt = true ∧
        fracPos (p.options.weekendSurchargePercent.getD ⟨15, 100⟩) = true ∧
        0 < percentOf (svcBaseCents svc) (p.options.weekendSurchargePercent.getD ⟨15, 100⟩)) := by
  have hbc : ∀ comps : List PriceComponent, ∀ rate : Frac,
      ((comps.map (fun c => (⟨c.code, c.label, convertCents c.amountCents rate⟩ :
        PriceComponent))).any (fun c => c.code == "WEEKEND"))
        = comps.any (fun c => c.code == "WEEKEND") := by
    intro comps rate
    rw [List.any_map]
    rfl
  have hbuild : ∀ standardDuration durationMinutes : Int,
      ((buildComponents p.serviceId p.scheduledAt (svcBaseCents svc)
          standardDuration durationMinutes p.options).any
        (fun c => c.code == "WEEKEND") = true) ↔
      (isWeekend p.scheduledAt = true ∧
        fracPos (p.options.weekendSurchargePercent.getD ⟨15, 100⟩) = true ∧
        0 < percentOf (svcBaseCents svc) (p.options.weekendSurchargePercent.getD ⟨15, 100⟩)) := by
    intro standardDuration durationMinutes
    unfold buildComponents
    simp only [List.any_append, Bool.or_eq_true,
      overageComponents_no_weekend, peakComponents_no_weekend,
      emergencyComponents_no_weekend,
      promoComponents_no_weekend p.serviceId p.options hpromo,
      weekendComponents_any, Bool.false_eq_true, false_or, or_false]
    constructor
    · rintro ⟨h1, h2, h3⟩
      exact ⟨h2, h1, h3⟩
    · rintro ⟨h1, h2, h3⟩
      exact ⟨h2, h1, h3⟩
  unfold calculateServicePrice
  rw [hfind]
  simp only [hgate, Bool.false_eq_true, if_false]
  split
  · rw [hbc]
    exact hbuild _ _
  · exact hbuild _ _

/-- C6 counterexample: a Saturday instant with the default positive weekend
percent, yet no WEEKEND component is produced, because the base price is zero
and the rounded surcharge amount is not positive. -/
theorem calculateServicePrice_weekend_iff_cex :
    isWeekend 172800000 = true ∧
      fracPos (⟨15, 100⟩ : Frac) = true ∧
      (emptyPricingOptions.weekendSurchargePercent = none) ∧
      ((calculateServicePrice ⟨[svcZeroBase], [], []⟩ none
          ⟨"s1", 172800000, none, emptyPricingOptions⟩).components.any
        (fun c => c.code == "WEEKEND")) = false := by
  decide

/-- Witness for C6 at a concrete Saturday instant with positive base. -/
theorem calculateServicePrice_weekend_iff_test :
    ((calculateServicePrice ⟨[svcSat], [], []⟩ none
        ⟨"s1", 172800000, none, emptyPricingOptions⟩).components.any
      (fun c => c.code == "WEEKEND") = true) ↔
      (isWeekend 172800000 = true ∧
        fracPos (emptyPricingOptions.weekendSurchargePercent.getD ⟨15, 100⟩) = true ∧
        0 < percentOf (svcBaseCents svcSat)
          (emptyPricingOptions.weekendSurchargePercent.getD ⟨15, 100⟩)) :=
  calculateServicePrice_weekend_iff ⟨[svcSat], [], []⟩ none
    ⟨"s1", 172800000, none, emptyPricingOptions⟩ svcSat rfl (by decide)
    (fun r c d hr => nomatch hr)

/-- Conversion by the fallback rate 1 is the identity on integer cents. -/
theorem convertCents_one (a : Int) : convertCents a ⟨1, 1⟩ = a := by
  unfold convertCents mulRound
  simp only [mul_one]
  rw [Int.fdiv_eq_ediv _ (by norm_num)]
  omega

/-- The latest-rate query returns a matching row of maximal fetch instant. -/
theorem findLatestRate_spec (rows : List ExchangeRateRow) (base target : String)
    (r : ExchangeRateRow) (h : findLatestRate rows base target = some r) :
    r ∈ rows ∧ r.base = base ∧ r.target = target ∧
      (∀ q ∈ rows, q.base = base → q.target = target → q.fetchedAt ≤ r.fetchedAt) := by
  unfold findLatestRate at h
  set flt := rows.filter (fun q => q.base == base && q.target == target) with hflt
  have hperm := List.perm_insertionSort fetchedDesc flt
  have hsorted := List.sorted_insertionSort fetchedDesc flt
  cases hL : flt.insertionSort fetchedDesc with
  | nil => rw [hL] at h; cases h
  | cons c rest =>
    rw [hL] at h
    have hcr : c = r := by simpa using h
    subst hcr
    have hcmem : c ∈ flt := hperm.mem_iff.mp (hL ▸ List.mem_cons_self c rest)
    have hcfilter := List.mem_filter.mp hcmem
    have hcb : c.base = base ∧ c.target = target := by
      have := hcfilter.2
      simp at this
      exact this
    refine ⟨hcfilter.1, hcb.1, hcb.2, ?_⟩
    intro q hq hqb hqt
    have hqflt : q ∈ flt := List.mem_filter.mpr ⟨hq, by simp [hqb, hqt]⟩
    have hqL : q ∈ c :: rest := hL ▸ hperm.mem_iff.mpr hqflt
    rcases List.mem_cons.mp hqL with rfl | hqr
    · exact le_refl _
    · exact List.rel_of_sorted_cons (hL ▸ hsorted) q hqr

/-- Mapping the fallback conversion over components changes nothing. -/
theorem map_convert_one (l : List PriceComponent) :
    l.map (fun c => (⟨c.code, c.label, convertCents c.amountCents ⟨1, 1⟩⟩ : PriceComponent))
      = l := by
  induction l with
  | nil => rfl
  | cons c rest ih => simp [convertCents_one, ih]

/-- C7: on the conversion path (active service, target differs from base),
a missing rate row yields the unconverted numerics labelled with the target
currency (effective rate 1), and an existing latest row is applied to the
base and to every component independently, that row being of maximal fetch
instant among the matching rows. -/
theorem calculateServicePrice_currency (db : PricingDb) (envBase : Option String)
    (p : PricingParams) (svc : ServiceRow) (baseCurrency targetCurrency : String)
    (hfind : db.services.find? (fun s => s.id == p.serviceId) = some svc)
    (hgate : pricingInactiveGate svc = false)
    (hbase : resolveBaseCurrency db envBase svc = baseCurrency)
    (htc : resolveTargetCurrency p.options baseCurrency = targetCurrency)
    (hne : targetCurrency ≠ baseCurrency) :
    (findLatestRate db.exchangeRates baseCurrency targetCurrency = none →
      calculateServicePrice db envBase p =
        ⟨targetCurrency, svcBaseCents svc,
          buildComponents p.serviceId p.scheduledAt (svcBaseCents svc) (svcStandardDuration svc)
            (max 15 (p.durationMinutes.getD (svcStandardDuration svc))) p.options,
          svcBaseCents svc,
          svcBaseCents svc + sumAmounts (buildComponents p.serviceId p.scheduledAt
            (svcBaseCents svc) (svcStandardDuration svc)
            (max 15 (p.durationMinutes.getD (svcStandardDuration svc))) p.options)⟩) ∧
    (∀ r, findLatestRate db.exchangeRates baseCurrency targetCurrency = some r →
      calculateServicePrice db envBase p =
        ⟨targetCurrency, convertCents (svcBaseCents svc) r.rate,
          (buildComponents p.serviceId p.scheduledAt (svcBaseCents svc) (svcStandardDuration svc)
            (max 15 (p.durationMinutes.getD (svcStandardDuration svc))) p.options).map
            (fun c => ⟨c.code, c.label, convertCents c.amountCents r.rate⟩),
          convertCents (svcBaseCents svc) r.rate,
          convertCents (svcBaseCents svc) r.rate + sumAmounts
            ((buildComponents p.serviceId p.scheduledAt (svcBaseCents svc)
              (svcStandardDuration svc)
              (max 15 (p.durationMinutes.getD (svcStandardDuration svc))) p.options).map
              (fun c => ⟨c.code, c.label, convertCents c.amountCents r.rate⟩))⟩ ∧
        r ∈ db.exchangeRates ∧ r.base = baseCurrency ∧ r.target = targetCurrency ∧
        (∀ q ∈ db.exchangeRates, q.base = baseCurrency → q.target = targetCurrency →
          q.fetchedAt ≤ r.fetchedAt)) := by
  constructor
  · intro hnone
    unfold calculateServicePrice
    rw [hfind]
    simp only [hgate, Bool.false_eq_true, if_false, hbase, htc, hne, ne_eq,
      not_false_eq_true, if_true, hnone]
    simp [map_convert_one, convertCents_one]
  · intro r hr
    refine ⟨?_, ?_⟩
    · unfold calculateServicePrice
      rw [hfind]
      simp only [hgate, Bool.false_eq_true, if_false, hbase, htc, hne, ne_eq,
        not_false_eq_true, if_true, hr]
      simp
    · have := findLatestRate_spec db.exchangeRates baseCurrency targetCurrency r hr
      exact this

theorem nth_eq_getElem (l : List CandidateWorkload) (i : Nat) (h : i < l.length) :
    nth l i = l[i] := by
  simp [nth, List.getElem?_eq_getElem h]

theorem nth_mem (l : List CandidateWorkload) (i : Nat) (h : i < l.length) :
    nth l i ∈ l := by
  rw [nth_eq_getElem l i h]
  exact List.getElem_mem h

theorem cacheGet_cacheSet (c : RotationCache) (k v : String) :
    cacheGet (cacheSet c k v) k = some v := by
  simp [cacheGet, cacheSet]

theorem rrNextIndex_lt (ordered : List CandidateWorkload) (last : Option String)
    (h : 0 < ordered.length) : rrNextIndex ordered last < ordered.length := by
  unfold rrNextIndex
  dsimp only
  split_ifs <;> first | exact Nat.mod_lt _ h | exact h

theorem findIdx?_of_nodup_ids (l : List CandidateWorkload) (j : Nat) (hj : j < l.length)
    (hnd : (l.map (fun c => c.tm.id)).Nodup) :
    l.findIdx? (fun e => e.tm.id == (nth l j).tm.id) = some j := by
  induction l generalizing j with
  | nil => cases hj
  | cons a l ih =>
    cases j with
    | zero =>
      simp [nth, List.findIdx?_cons]
    | succ j =>
      have hj2 : j < l.length := Nat.lt_of_succ_lt_succ hj
      have hnd2 : (l.map (fun c => c.tm.id)).Nodup := (List.nodup_cons.mp hnd).2
      have hnotin : a.tm.id ∉ l.map (fun c => c.tm.id) := (List.nodup_cons.mp hnd).1
      have hgd : nth (a :: l) (j + 1) = nth l j := by simp [nth]
      have hmem : (nth l j).tm.id ∈ l.map (fun c => c.tm.id) :=
        List.mem_map.mpr ⟨nth l j, nth_mem l j hj2, rfl⟩
      have hne : (a.tm.id == (nth l j).tm.id) = false := by
        rw [beq_eq_false_iff_ne]
        intro h
        exact hnotin (h ▸ hmem)
      rw [hgd, List.findIdx?_cons, hne]
      simp [ih j hj2 hnd2]

theorem selectRoundRobin_step (candidates : List CandidateWorkload) (t : Option String)
    (cache : RotationCache) (h0 : ¬candidates.isEmpty = true) :
    selectRoundRobin candidates t cache =
      (some (nth (candidates.insertionSort idOrder)
          (rrNextIndex (candidates.insertionSort idOrder) (cacheGet cache (rotationKey t)))),
        cacheSet cache (rotationKey t)
          (nth (candidates.insertionSort idOrder)
            (rrNextIndex (candidates.insertionSort idOrder)
              (cacheGet cache (rotationKey t)))).tm.id) := by
  unfold selectRoundRobin
  rw [if_neg h0]
  dsimp only
  have hlen : 0 < (candidates.insertionSort idOrder).length := by
    rw [(List.perm_insertionSort idOrder candidates).length_eq]
    cases candidates
    · simp at h0
    · simp
  have hlt := rrNextIndex_lt (candidates.insertionSort idOrder)
    (cacheGet cache (rotationKey t)) hlen
  rw [List.getElem?_eq_getElem hlt, nth_eq_getElem _ _ hlt]

theorem rrNextIndex_after (O : List CandidateWorkload) (j : Nat) (hj : j < O.length)
    (hnd : (O.map (fun c => c.tm.id)).Nodup) (hne : (nth O j).tm.id ≠ "") :
    rrNextIndex O (some ((nth O j).tm.id)) = (j + 1) % O.length := by
  have ht : truthyStr (some ((nth O j).tm.id)) = true := by
    simp [truthyStr, hne]
  unfold rrNextIndex
  dsimp only
  rw [if_pos ht]
  have hfi : jsFindIndex O ((some ((nth O j).tm.id)).getD "") = (j : Int) := by
    unfold jsFindIndex
    rw [Option.getD_some, findIdx?_of_nodup_ids O j hj hnd]
  rw [hfi]
  simp

theorem runRoundRobin_trace (candidates : List CandidateWorkload) (t : Option String)
    (h0 : candidates ≠ [])
    (hnd : ((candidates.insertionSort idOrder).map (fun c => c.tm.id)).Nodup)
    (hne : ∀ c ∈ candidates, c.tm.id ≠ "") (n : Nat) (cache : RotationCache) :
    (runRoundRobin candidates t n cache).1 =
      (List.range n).map (fun k =>
        nth (candidates.insertionSort idOrder)
          ((rrNextIndex (candidates.insertionSort idOrder) (cacheGet cache (rotationKey t)) + k)
            % (candidates.insertionSort idOrder).length)) := by
  have hemp : ¬candidates.isEmpty = true := by
    cases candidates
    · exact absurd rfl h0
    · simp
  have hlen : 0 < (candidates.insertionSort idOrder).length := by
    rw [(List.perm_insertionSort idOrder candidates).length_eq]
    exact List.length_pos.mpr h0
  induction n generalizing cache with
  | zero => rfl
  | succ n ih =>
    have hj := rrNextIndex_lt (candidates.insertionSort idOrder)
      (cacheGet cache (rotationKey t)) hlen
    have hneid : (nth (candidates.insertionSort idOrder)
        (rrNextIndex (candidates.insertionSort idOrder)
          (cacheGet cache (rotationKey t)))).tm.id ≠ "" := by
      apply hne
    -- membership transported through the sorting permutation
      exact (List.perm_insertionSort idOrder candidates).mem_iff.mp (nth_mem _ _ hj)
    simp only [runRoundRobin, selectRoundRobin_step candidates t cache hemp]
    rw [ih (cacheSet cache (rotationKey t) _)]
    rw [cacheGet_cacheSet]
    rw [rrNextIndex_after _ _ hj hnd hneid]
    rw [List.range_succ_eq_map, List.map_cons, List.map_map]
    congr 1
    · rw [Nat.add_zero, Nat.mod_eq_of_lt hj]
    · apply List.map_congr_left
      intro k _
      simp only [Function.comp]
      congr 1
      rw [Nat.mod_add_mod]
      congr 1
      omega

/-- C8: over a fixed pool with distinct nonempty ids, as many successive
round-robin selections as there are candidates visit each candidate exactly
once (the picks are a permutation of the pool). -/
theorem selectRoundRobin_cycle (candidates : List CandidateWorkload) (t : Option String)
    (cache : RotationCache) (h0 : candidates ≠ [])
    (hnd : (candidates.map (fun c => c.tm.id)).Nodup)
    (hne : ∀ c ∈ candidates, c.tm.id ≠ "") :
    ((runRoundRobin candidates t candidates.length cache).1).Perm candidates := by
  have hperm := List.perm_insertionSort idOrder candidates
  have hlen : (candidates.insertionSort idOrder).length = candidates.length :=
    hperm.length_eq
  have hpos : 0 < (candidates.insertionSort idOrder).length := by
    rw [hlen]
    exact List.length_pos.mpr h0
  have hndO : ((candidates.insertionSort idOrder).map (fun c => c.tm.id)).Nodup :=
    (List.Perm.nodup_iff (hperm.map (fun c => c.tm.id))).mpr hnd
  rw [runRoundRobin_trace candidates t h0 hndO hne candidates.length cache]
  have hj0 := rrNextIndex_lt (candidates.insertionSort idOrder)
    (cacheGet cache (rotationKey t)) hpos
  have hrot : (List.range candidates.length).map (fun k =>
      nth (candidates.insertionSort idOrder)
        ((rrNextIndex (candidates.insertionSort idOrder) (cacheGet cache (rotationKey t)) + k)
          % (candidates.insertionSort idOrder).length)) =
      (candidates.insertionSort idOrder).rotate
        (rrNextIndex (candidates.insertionSort idOrder) (cacheGet cache (rotationKey t))) := by
    apply List.ext_getElem
    · simp [hlen]
    · intro i h1 h2
      rw [List.getElem_map, List.getElem_range, List.getElem_rotate]
      rw [nth_eq_getElem _ _ (Nat.mod_lt _ hpos)]
      congr 1
      rw [Nat.add_comm]
  rw [hrot]
  exact (List.rotate_perm _ _).trans hperm

/-- Witness for C8 at a concrete three-candidate pool and empty cache. -/
theorem selectRoundRobin_cycle_test :
    ((runRoundRobin poolW none poolW.length ([] : RotationCache)).1).Perm poolW :=
  selectRoundRobin_cycle poolW none [] (by decide) (by decide) (by decide)

/-- C9: the auto-assignment engine is a no-op (same request row back, store
and rotation cache untouched) when the request is already assigned, when the
resolved auto-assign setting is disabled, or when the candidate pool is
empty; and the store changes only by the single assignment write of a
candidate selected by the configured strategy. -/
theorem autoAssignServiceRequest_frame (db : AssignDb) (env : AssignEnv)
    (cache : RotationCache) (rid : String) (request : ServiceRequestRow)
    (hreq : db.serviceRequests.find? (fun r => r.id == rid) = some request) :
    (truthyStr request.assignedTeamMemberId = true →
      autoAssignServiceRequest db env cache rid = (some request, db, cache)) ∧
    (truthyStr request.assignedTeamMemberId = false →
      (resolvedSettings env).autoAssign = false →
      autoAssignServiceRequest db env cache rid = (some request, db, cache)) ∧
    (truthyStr request.assignedTeamMemberId = false →
      candidatePool db env (if truthyStr request.tenantId then request.tenantId else none) = [] →
      autoAssignServiceRequest db env cache rid = (some request, db, cache)) ∧
    ((autoAssignServiceRequest db env cache rid).2.1 = db ∨
      ∃ c cache2,
        resolveAssignee
          (computeWorkloads db env (if truthyStr request.tenantId then request.tenantId else none)
            (requestServiceCategory db request)
            (candidatePool db env (if truthyStr request.tenantId then request.tenantId else none)))
          (resolvedSettings env)
          (if truthyStr request.tenantId then request.tenantId else none) cache
          = (some c, cache2) ∧
        autoAssignServiceRequest db env cache rid =
          (some (updatedRequestRow request c.tm.id env.now
              (resolveAssignmentStatus (resolvedSettings env))),
            applyAssignment db request.id c.tm.id env.now
              (resolveAssignmentStatus (resolvedSettings env)),
            cache2)) := by
  refine ⟨?_, ?_, ?_, ?_⟩
  · intro h1
    unfold autoAssignServiceRequest
    rw [hreq]
    simp [h1]
  · intro h1 h2
    unfold autoAssignServiceRequest
    rw [hreq]
    simp [h1, h2]
  · intro h1 h2
    unfold autoAssignServiceRequest
    rw [hreq]
    simp [h1, h2]
  · unfold autoAssignServiceRequest
    rw [hreq]
    by_cases h1 : truthyStr request.assignedTeamMemberId = true
    · left
      simp [h1]
    · rw [Bool.not_eq_true] at h1
      by_cases h2 : (resolvedSettings env).autoAssign = true
      · by_cases h3 : (candidatePool db env
            (if truthyStr request.tenantId then request.tenantId else none)).isEmpty = true
        · left
          simp [h1, h2, h3]
        · cases hres : resolveAssignee
            (computeWorkloads db env (if truthyStr request.tenantId then request.tenantId else none)
              (requestServiceCategory db request)
              (candidatePool db env (if truthyStr request.tenantId then request.tenantId else none)))
            (resolvedSettings env)
            (if truthyStr request.tenantId then request.tenantId else none) cache with
          | mk oc cache2 =>
            cases oc with
            | none =>
              left
              simp [h1, h2, h3, hres]
            | some c =>
              right
              refine ⟨c, cache2, rfl, ?_⟩
              simp [h1, h2, h3, hres]
      · left
        rw [Bool.not_eq_true] at h2
        simp [h1, h2]

/-- Witness for C7: cross-currency quote with an empty rate table keeps the
numerics and relabels the currency. -/
theorem calculateServicePrice_currency_test :
    calculateServicePrice ⟨[svcSat], [], []⟩ none
      ⟨"s1", 0, none, ⟨some "EUR", none, none, none, none, none, none⟩⟩ =
      ⟨"EUR", 10000, [], 10000, 10000⟩ := by
  have h := (calculateServicePrice_currency ⟨[svcSat], [], []⟩ none
    ⟨"s1", 0, none, ⟨some "EUR", none, none, none, none, none, none⟩⟩ svcSat
    "USD" "EUR" rfl (by decide) (by decide) (by decide) (by decide)).1 rfl
  rw [h]
  decide

/-- Witness for C9 at a concrete already-assigned request. -/
theorem autoAssignServiceRequest_frame_test :
    autoAssignServiceRequest dbAssigned envAssigned [] "r1" = (some reqAssigned, dbAssigned, []) :=
  (autoAssignServiceRequest_frame dbAssigned envAssigned [] "r1" reqAssigned rfl).1 (by decide)

